import Mathlib

/-!
Verification of the OpenClaw Linux talk-mode runtime
(`src/talk/linux/runtime.ts`, `src/talk/linux/vad.ts`,
`src/talk/linux/directive.ts`).

The development shallowly embeds the runtime as pure Lean functions:

* JS strings are `List Char`; the punctuation/whitespace normalization,
  wake-phrase matching and transcript handling are embedded verbatim.
* The VAD (`createVad` in `vad.ts`) is embedded over `ℚ`.  `note` first
  computes the RMS of the frame and then updates the noise floor with the
  rms value; since the RMS itself is a square root, the embedding takes
  the rms value as the input of a step and relates it to a concrete frame
  through the predicate `IsRmsOf`.
* The mutable fields of `LinuxTalkRuntime` become the structure `RState`;
  each method of the class becomes a state-transition function of the
  same name, and the asynchronous entry points become events (`Ev`) so
  that whole interleavings are lists of events starting from the initial
  state (`runEv`).
* `sendAndSpeak` suspends at `chatSend`, at `waitForAssistantText` and at
  playback; each resumption point is embedded as its own function on
  `RState` (`afterChatSend`, `afterWaitReply`, `afterPlayback`).
-/

namespace OpenClaw

/-! ## JS string primitives (strings as lists of characters) -/

/-- The whitespace characters relevant to the transcripts handled by the
runtime (JS regexp class `\s`, restricted to ASCII). -/
def isWsChar (c : Char) : Bool :=
  c = ' ' || c = '\t' || c = '\n' || c = '\r'

/-- The punctuation class `[.,!?;:]` used by `normalizeForMatching` and by
the remainder extraction in `finalizeVoiceWakeSegment`. -/
def isWakePunct (c : Char) : Bool :=
  c = '.' || c = ',' || c = '!' || c = '?' || c = ';' || c = ':'

/-- JS `toLowerCase` (ASCII). -/
def jsToLower (l : List Char) : List Char := l.map Char.toLower

/-- JS `trim`: strip leading and trailing whitespace. -/
def jsTrim (l : List Char) : List Char :=
  ((l.dropWhile isWsChar).reverse.dropWhile isWsChar).reverse

/-- JS `replace(/\s+/g, " ")`: each maximal whitespace run becomes one
space. -/
def collapseWs (l : List Char) : List Char :=
  l.foldr
    (fun c acc =>
      if isWsChar c then (if acc.head? = some ' ' then acc else ' ' :: acc)
      else c :: acc)
    []

/-- Source `normalizeForMatching` of `finalizeVoiceWakeSegment` (runtime.ts):
replace `[.,!?;:]` by spaces, collapse whitespace, trim. -/
def normalizeForMatching (l : List Char) : List Char :=
  jsTrim (collapseWs (l.map fun c => if isWakePunct c then ' ' else c))

/-- Helper of `splitWsWords`: accumulator-based word splitting. -/
def splitWsAux : List Char → List Char → List (List Char)
  | [], acc => if acc = [] then [] else [acc.reverse]
  | c :: cs, acc =>
    if isWsChar c then
      (if acc = [] then splitWsAux cs [] else acc.reverse :: splitWsAux cs [])
    else splitWsAux cs (c :: acc)

/-- JS `split(/\s+/).filter(w => w)`: the maximal non-whitespace runs. -/
def splitWsWords (l : List Char) : List (List Char) := splitWsAux l []

/-- Source `startVoiceWakeListener` (runtime.ts): wake words are the configured
string trimmed, lowercased and split on whitespace. -/
def voiceWakeWordsOf (cfg : List Char) : List (List Char) :=
  splitWsWords (jsToLower (jsTrim cfg))

/-- Source `finalizeVoiceWakeSegment`: `wakePhrase = wakeWords.join(" ")`. -/
def wakePhraseOf (cfg : List Char) : List Char :=
  List.intercalate [' '] (voiceWakeWordsOf cfg)

/-- The wake-phrase test of `finalizeVoiceWakeSegment`: lowercase and trim
the transcript, normalize both sides, and test
`normalizedForMatch.startsWith(wakePhraseForMatch)`. -/
def matchesWake (transcript wakePhrase : List Char) : Bool :=
  (normalizeForMatching wakePhrase).isPrefixOf
    (normalizeForMatching (jsTrim (jsToLower transcript)))

/-- The remainder extraction of `finalizeVoiceWakeSegment`:
`normalizedTranscript.substring(wakePhrase.length).replace(/^[.,!?;:\s]+/, "").trim()`. -/
def extractRemainder (transcript wakePhrase : List Char) : List Char :=
  jsTrim (((jsTrim (jsToLower transcript)).drop wakePhrase.length).dropWhile
    fun c => isWakePunct c || isWsChar c)

/-- The decision taken by `finalizeVoiceWakeSegment` on a transcribed wake
segment (conversation not enabled): `none` = no match, segment discarded;
`some none` = activate with no forwarded message; `some (some m)` =
activate and forward `m` as the first user turn. -/
def voiceWakeDecision (transcript wakePhrase : List Char) : Option (Option (List Char)) :=
  if matchesWake transcript wakePhrase then
    let remainder := extractRemainder transcript wakePhrase
    some (if remainder = [] then none else some remainder)
  else none

/-! ## Voice activity detector (`createVad` in vad.ts) -/

/-- Source `minSpeechRms = 5e-6`. -/
def minSpeechRms : ℚ := 5 / 1000000

/-- Initial `noiseFloor` value `1e-4`. -/
def vadInitialNoiseFloor : ℚ := 1 / 10000

/-- Source `speechBoostFactor = 1.0`. -/
def speechBoostFactor : ℚ := 1

/-- One call of `vad.note`, taking the RMS of the frame as input:
update the noise floor (fast decay `0.08` below the floor, slow rise
`0.01` above), clamp it at `1e-7`, derive the threshold
`max(minSpeechRms, noiseFloor * speechBoostFactor)` and report speech iff
`rms >= threshold * 0.9`.  Returns (speech, new floor, threshold). -/
def vadNote (rms floor : ℚ) : Bool × ℚ × ℚ :=
  let alpha : ℚ := if rms < floor then 8 / 100 else 1 / 100
  let floor2 := max (1 / 10000000) (floor + (rms - floor) * alpha)
  let threshold := max minSpeechRms (floor2 * speechBoostFactor)
  (decide (threshold * (9 / 10) ≤ rms), floor2, threshold)

/-- Feed a sequence of frame RMS values to one VAD instance; `true` iff
some call reported speech. -/
def vadRunAnySpeech : List ℚ → ℚ → Bool
  | [], _ => false
  | r :: rs, floor =>
    let res := vadNote r floor
    res.1 || vadRunAnySpeech rs res.2.1

/-- Relation stating that `r` is the RMS computed by `computeRms` (vad.ts) for `chunk`: samples
are scaled by `1/32768`, and the RMS is the square root of the mean of
their squares (mean over `max 1 chunk.length`). -/
def IsRmsOf (chunk : List Int) (r : ℚ) : Prop :=
  0 ≤ r ∧
    r * r * (max 1 chunk.length : ℚ) =
      (chunk.map fun s : Int => ((s : ℚ) / 32768) ^ 2).sum

/-- A frame witnessing the RMS value `5 / 1048576` used in the C4
counterexample: 1024 samples, 25 of them equal to 1. -/
def cexChunk : List Int := List.replicate 25 1 ++ List.replicate 999 0

/-- The RMS of `cexChunk`. -/
def cexRms : ℚ := 5 / 1048576

/-- Source `vad.shouldInterrupt(lastSpoken)`: `lastSpoken.length > 3`. -/
def shouldInterrupt (lastSpokenLen : Nat) : Bool := decide (3 < lastSpokenLen)

/-- Source `vad.shouldFinalize(lastHeardAt)`: false when no speech was ever
heard, otherwise silence for at least `silenceWindowMs = 700`. -/
def vadShouldFinalize (lastHeardAt : Option Int) (now : Int) : Bool :=
  match lastHeardAt with
  | none => false
  | some t => decide (700 ≤ now - t)

/-! ## Runtime phases and the wake listener segment assembler -/

/-- Source `TalkPhase` (runtime.ts). -/
inductive TalkPhase
  | idle
  | listening
  | thinking
  | speaking
deriving DecidableEq

/-- Push onto a pre-roll ring buffer: append, and if the length exceeds 6
evict the oldest element (`push` then `shift`). -/
def pushPreRoll (pr : List Nat) (c : Nat) : List Nat :=
  let pr2 := pr ++ [c]
  if 6 < pr2.length then pr2.tail else pr2

/-- The local segment-assembler state of the wake listener loop
(`startVoiceWakeListener`): `capturingSpeech`, `audioChunks`, `preRoll`
and the pending phrase-timeout deadline (`captureTimeout`). -/
structure WakeAsm where
  capturing : Bool
  chunks : List Nat
  preRoll : List Nat
  deadline : Option Int
deriving DecidableEq

/-- Initial wake-listener assembler state. -/
def WakeAsm.init : WakeAsm := ⟨false, [], [], none⟩

/-- One frame of the wake-listener loop body (runtime.ts lines 226-277),
given the VAD verdict for the frame: on speech onset start capturing,
reset the chunk list, keep the current pre-roll and schedule the phrase
timeout; push to the pre-roll only while not capturing; append every
frame while capturing; finalize as soon as a non-speech frame arrives
while capturing with a non-empty chunk list.  The second component is the
finalized segment (`[...preRoll, ...audioChunks]`), if any. -/
def wakeChunkAsm (phraseTimeoutMs now : Int) (chunk : Nat) (speech : Bool)
    (a : WakeAsm) : WakeAsm × Option (List Nat) :=
  let a := if speech && !a.capturing then
      { a with capturing := true, chunks := [], deadline := some (now + phraseTimeoutMs) }
    else a
  let a := if !a.capturing then { a with preRoll := pushPreRoll a.preRoll chunk } else a
  let a := if a.capturing then { a with chunks := a.chunks ++ [chunk] } else a
  if !speech && a.capturing && !a.chunks.isEmpty then
    (⟨false, [], [], none⟩, some (a.preRoll ++ a.chunks))
  else (a, none)

/-- The phrase-timeout callback (`captureTimeout`): finalize the buffered
segment (`finalizeVoiceWakeSegment` returns without an utterance when the
chunk list is empty) and reset the buffers. -/
def wakeTimeoutAsm (a : WakeAsm) : WakeAsm × Option (List Nat) :=
  (⟨false, [], [], none⟩,
    if a.chunks.isEmpty then none else some (a.preRoll ++ a.chunks))

/-! ## Runtime state (`LinuxTalkRuntime` fields) -/

/-- The mutable fields of `LinuxTalkRuntime` that the claims are about.
`convCaptureActive` models `captureAbort != null` (the conversation
holds a capture stream); `captureStreamId` tracks the identity of that
stream (each `startCapture` creates a new one); `wakeListenerActive`
models `voiceWakeListenerAbort != null` (the wake listener loop and its
capture stream are alive); `autoDisableArmed` models
`voiceWakeAutoDisableTimeout != null`; `lastSpokenTextLen` is the length
of `lastSpokenText` (0 for null). -/
structure RState where
  enabled : Bool
  paused : Bool
  phase : TalkPhase
  lifecycleGen : Nat
  turnGen : Nat
  lastHeardAt : Option Int
  captureStartedAt : Option Int
  lastSpokenTextLen : Nat
  audioChunks : List Nat
  preRoll : List Nat
  capturingSpeech : Bool
  convCaptureActive : Bool
  captureStreamId : Nat
  playbackActive : Bool
  voiceWakeEnabled : Bool
  wakeListenerActive : Bool
  voiceWakeGen : Nat
  voiceWakeActivated : Bool
  autoDisableArmed : Bool
  wakeAsm : WakeAsm
deriving DecidableEq

/-- Process-start state. -/
def RState.init : RState where
  enabled := false
  paused := false
  phase := .idle
  lifecycleGen := 0
  turnGen := 0
  lastHeardAt := none
  captureStartedAt := none
  lastSpokenTextLen := 0
  audioChunks := []
  preRoll := []
  capturingSpeech := false
  convCaptureActive := false
  captureStreamId := 0
  playbackActive := false
  voiceWakeEnabled := false
  wakeListenerActive := false
  voiceWakeGen := 0
  voiceWakeActivated := false
  autoDisableArmed := false
  wakeAsm := WakeAsm.init

/-- Source `clearVoiceWakeAutoDisable`. -/
def clearVoiceWakeAutoDisable (s : RState) : RState :=
  { s with autoDisableArmed := false }

/-- Source `startVoiceWakeAutoDisable`: arm the 20 s timer, but only when talk
mode was activated by voice wake. -/
def startVoiceWakeAutoDisable (s : RState) : RState :=
  if !s.voiceWakeActivated then s
  else { clearVoiceWakeAutoDisable s with autoDisableArmed := true }

/-- The auto-disable duration (`20000` ms); the event model abstracts
real time, so the constant is recorded but not consumed. -/
def autoDisableMs : Int := 20000

/-- Source `resetCaptureBuffers`. -/
def resetCaptureBuffers (s : RState) : RState :=
  { s with audioChunks := [], preRoll := [], capturingSpeech := false,
           captureStartedAt := none }

/-- Source `stopCapture`: abort the conversation capture stream. -/
def stopCapture (s : RState) : RState := { s with convCaptureActive := false }

/-- Source `startCapture`: stop any existing capture, create a fresh stream and
reset the segment buffers (a fresh VAD instance is created as well). -/
def startCapture (s : RState) : RState :=
  resetCaptureBuffers
    { stopCapture s with convCaptureActive := true,
                         captureStreamId := s.captureStreamId + 1 }

/-- Source `startListening`: enter the listening phase and reset the buffers. -/
def startListening (s : RState) : RState :=
  resetCaptureBuffers { s with phase := .listening }

/-- Source `resumeListeningIfNeeded`. -/
def resumeListeningIfNeeded (s : RState) : RState :=
  if s.paused then s else startCapture (startListening s)

/-- Source `stopPlayback`: abort playback. -/
def stopPlayback (s : RState) : RState := { s with playbackActive := false }

/-- The private `start()`. -/
def startRun (s : RState) : RState :=
  if s.paused then { s with phase := .idle }
  else { startCapture s with phase := .listening }

/-- The private `stop()`. -/
def stopRun (s : RState) : RState :=
  { stopCapture (stopPlayback s) with phase := .idle }

/-- Source `startVoiceWakeListener`: no-op when a listener is already running,
otherwise start a fresh loop under a new listener generation (with fresh
local assembler state). -/
def startVoiceWakeListener (s : RState) : RState :=
  if s.wakeListenerActive then s
  else { s with wakeListenerActive := true, voiceWakeGen := s.voiceWakeGen + 1,
                wakeAsm := WakeAsm.init }

/-- Source `setEnabled` (runtime.ts lines 104-125). -/
def setEnabled (e : Bool) (s : RState) : RState :=
  if s.enabled = e then s
  else
    let s := { s with enabled := e, lifecycleGen := s.lifecycleGen + 1 }
    let s := if !e then
        { clearVoiceWakeAutoDisable s with voiceWakeActivated := false } else s
    let s := if s.voiceWakeEnabled && !s.wakeListenerActive then
        startVoiceWakeListener s else s
    if e then startRun s else stopRun s

/-- Source `setVoiceWakeEnabled` (runtime.ts lines 75-102). -/
def setVoiceWakeEnabled (e : Bool) (s : RState) : RState :=
  let s := { s with voiceWakeEnabled := e }
  if e then startVoiceWakeListener s
  else
    let s := if s.wakeListenerActive then
        { s with wakeListenerActive := false, voiceWakeGen := s.voiceWakeGen + 1 }
      else s
    { clearVoiceWakeAutoDisable s with voiceWakeActivated := false }

/-- The activation taken by `finalizeVoiceWakeSegment` on a wake match
while the conversation is disabled: mark wake-activated and enable. -/
def wakeActivate (s : RState) : RState :=
  if s.enabled then s
  else setEnabled true { s with voiceWakeActivated := true }

/-- End of `playAssistant` / `playAssistantMedia`: playback has finished
and the auto-disable timer is armed (when wake-activated). -/
def playbackComplete (s : RState) : RState :=
  startVoiceWakeAutoDisable { s with playbackActive := false }

/-- The auto-disable timeout callback: clear the wake-activated flag and
disable talk mode (which also clears the fired timer handle). -/
def autoDisableFire (s : RState) : RState :=
  if s.autoDisableArmed then setEnabled false { s with voiceWakeActivated := false }
  else s

/-! ## Conversation capture loop and transcript handling -/

/-- The segment-assembler part of the conversation capture loop body
(runtime.ts lines 441-478, reached only in the listening phase): push to
the pre-roll while not capturing; on speech onset seed the utterance as
`[...preRoll, chunk]`; append every frame while capturing; finalize when
the capture exceeds 12 s or the VAD reports 700 ms of silence.  The
second component is the finalized segment handed to `transcribeAndSend`,
if any. -/
def convAssembleStep (now : Int) (chunk : Nat) (speech : Bool) (s : RState) :
    RState × Option (List Nat) :=
  let s := if !s.capturingSpeech then
      { s with preRoll := pushPreRoll s.preRoll chunk } else s
  let s :=
    if speech then
      if !s.capturingSpeech then
        { s with capturingSpeech := true, captureStartedAt := some now,
                 audioChunks := s.preRoll ++ [chunk] }
      else { s with audioChunks := s.audioChunks ++ [chunk] }
    else if s.capturingSpeech then
      { s with audioChunks := s.audioChunks ++ [chunk] }
    else s
  let captureTooLong := s.capturingSpeech &&
    (match s.captureStartedAt with
      | some t => decide (12000 < now - t)
      | none => false)
  if s.capturingSpeech && (captureTooLong || vadShouldFinalize s.lastHeardAt now) then
    (resetCaptureBuffers s, some s.audioChunks)
  else (s, none)

/-- One frame of the conversation capture loop (`startCapture`, runtime.ts
lines 410-478), given the VAD verdict for the frame: skip while paused or
idle; record `lastHeardAt` on speech; barge-in during speaking (when
`lastSpokenText` is longer than 3) and during thinking; while listening,
run the segment assembler. -/
def convChunkStep (now : Int) (chunk : Nat) (speech : Bool) (s : RState) :
    RState × Option (List Nat) :=
  if s.paused || s.phase = .idle then (s, none)
  else
    let s := if speech then { s with lastHeardAt := some now } else s
    if s.phase = .speaking && speech then
      if shouldInterrupt s.lastSpokenTextLen then
        (startListening (stopPlayback { s with turnGen := s.turnGen + 1 }), none)
      else (s, none)
    else if s.phase = .thinking && speech then
      (startListening { s with turnGen := s.turnGen + 1 }, none)
    else if s.phase ≠ .listening then (s, none)
    else convAssembleStep now chunk speech s

/-- One frame of the wake-listener loop including its guards (runtime.ts
lines 223-224): drop the frame when the listener generation is stale or
when talk mode is enabled; otherwise run the assembler. -/
def wakeChunkStep (phraseTimeoutMs now : Int) (chunk : Nat) (speech : Bool)
    (listenerGen : Nat) (s : RState) : RState × Option (List Nat) :=
  if listenerGen ≠ s.voiceWakeGen then (s, none)
  else if s.enabled then (s, none)
  else
    let r := wakeChunkAsm phraseTimeoutMs now chunk speech s.wakeAsm
    ({ s with wakeAsm := r.1 }, r.2)

/-- Transcript handling of a finalized conversation segment:
`transcribeAndSend` past the whisper call composed with
`finalizeTranscript` (runtime.ts lines 512-575).  The second component is
the message dispatched to `sendAndSpeak`, if any. -/
def utteranceStep (transcript : List Char) (s : RState) :
    RState × Option (List Char) :=
  let cleaned := jsTrim transcript
  if cleaned = [] then (resumeListeningIfNeeded s, none)
  else
    let s := clearVoiceWakeAutoDisable
      { s with phase := .thinking, turnGen := s.turnGen + 1 }
    let lower := jsToLower cleaned
    if lower = "stop".toList then (resumeListeningIfNeeded s, none)
    else if "stop ".toList.isPrefixOf lower then
      let remainder := jsTrim (cleaned.drop 5)
      if remainder = [] then (resumeListeningIfNeeded s, none)
      else (s, some remainder)
    else (s, some cleaned)

/-! ## sendAndSpeak resumption points -/

/-- Source `isCurrent(gen)`. -/
def isCurrent (gen : Nat) (s : RState) : Bool :=
  (gen == s.lifecycleGen) && s.enabled

/-- Source `isTurn(turn)`. -/
def isTurn (turn : Nat) (s : RState) : Bool :=
  (turn == s.turnGen) && s.enabled

/-- The `sendAndSpeak` resumption after `chatSend` returns: proceed only when
the captured lifecycle and turn generations are still current (second
component = whether the turn proceeds). -/
def afterChatSend (gen turn : Nat) (s : RState) : RState × Bool :=
  if !(isCurrent gen s && isTurn turn s) then (s, false) else (s, true)

/-- Source `playAssistant` up to the start of playback: record `lastSpokenText`
(abstracted to its length; the directive parsing and link stripping that
produce the spoken text are not modelled), restart capture, enter the
speaking phase, abort any previous playback and start the new one. -/
def playAssistantStart (spokenLen : Nat) (s : RState) : RState :=
  { startCapture { s with lastSpokenTextLen := spokenLen } with
      phase := .speaking, playbackActive := true }

/-- The `sendAndSpeak` resumption after `waitForAssistantText`: a null reply
(timeout, or the poll loop observing a stale turn) resumes listening with
no staleness check; a non-null reply is dropped when the turn is stale,
and otherwise playback begins (`reply` carries the spoken-text length). -/
def afterWaitReply (gen turn : Nat) (reply : Option Nat) (s : RState) : RState :=
  match reply with
  | none => resumeListeningIfNeeded s
  | some spokenLen =>
    if !(isTurn turn s) then s
    else playAssistantStart spokenLen s

/-- The `sendAndSpeak` resumption after playback ends: `playAssistant` has
already run `startVoiceWakeAutoDisable`; then the generation check guards
the return to listening. -/
def afterPlayback (gen turn : Nat) (s : RState) : RState :=
  let s := startVoiceWakeAutoDisable { s with playbackActive := false }
  if !(isCurrent gen s && isTurn turn s) then s
  else resumeListeningIfNeeded s

/-! ## Event traces -/

/-- The asynchronous entry points of the runtime as events. -/
inductive Ev
  | manualOn
  | manualOff
  | voiceWakeOn
  | voiceWakeOff
  | wakeActivate
  | playbackComplete
  | timerFire
  | utterance (transcript : List Char)
  | convChunk (now : Int) (chunk : Nat) (speech : Bool)
  | wakeChunk (phraseTimeoutMs now : Int) (chunk : Nat) (speech : Bool) (listenerGen : Nat)
  | wakeTimeout
deriving DecidableEq

/-- Apply one event. -/
def stepEv : Ev → RState → RState
  | .manualOn, s => setEnabled true s
  | .manualOff, s => setEnabled false s
  | .voiceWakeOn, s => setVoiceWakeEnabled true s
  | .voiceWakeOff, s => setVoiceWakeEnabled false s
  | .wakeActivate, s => wakeActivate s
  | .playbackComplete, s => playbackComplete s
  | .timerFire, s => autoDisableFire s
  | .utterance t, s => (utteranceStep t s).1
  | .convChunk now c sp, s => (convChunkStep now c sp s).1
  | .wakeChunk tm now c sp g, s => (wakeChunkStep tm now c sp g s).1
  | .wakeTimeout, s => { s with wakeAsm := (wakeTimeoutAsm s.wakeAsm).1 }

/-- Run a trace from process start. -/
def runEv (evs : List Ev) : RState :=
  evs.foldl (fun s e => stepEv e s) RState.init

/-! ## Wake assembler runs (for the per-frame counting claims) -/

/-- Wake-listener assembler events: a captured frame, or the phrase
timeout firing. -/
inductive WEvent
  | frame (now : Int) (chunk : Nat) (speech : Bool)
  | timeout
deriving DecidableEq

/-- One assembler event. -/
def wakeStepEv (tm : Int) : WEvent → WakeAsm → WakeAsm × Option (List Nat)
  | .frame now c sp, a => wakeChunkAsm tm now c sp a
  | .timeout, a => wakeTimeoutAsm a

/-- All segments finalized along a run of the wake assembler. -/
def wakeRunUtts (tm : Int) : List WEvent → WakeAsm → List (List Nat)
  | [], _ => []
  | e :: es, a =>
    let r := wakeStepEv tm e a
    (match r.2 with | some u => [u] | none => []) ++ wakeRunUtts tm es r.1

/-- The frame identifiers of a wake-assembler event list. -/
def wEventIds : List WEvent → List Nat
  | [] => []
  | .frame _ c _ :: es => c :: wEventIds es
  | .timeout :: es => wEventIds es

/-- Concrete state for the C2 counterexample: turn 2 is under way with a
partially captured segment, while turn 1 (superseded by a barge-in) is
still awaiting its assistant reply. -/
def c2State : RState :=
  { RState.init with
      enabled := true, phase := .listening, lifecycleGen := 1, turnGen := 2,
      convCaptureActive := true, captureStreamId := 1,
      capturingSpeech := true, audioChunks := [7], lastSpokenTextLen := 5 }

/-- The noise floor held by a VAD instance after feeding a sequence of
frame RMS values. -/
def vadFloorAfter : List ℚ → ℚ → ℚ
  | [], f => f
  | r :: rs, f => vadFloorAfter rs (vadNote r f).2.1

/-- The auto-disable timer invariant: a timer handle exists only while the
wake-activated flag is set, and the flag is set only while talk mode is
enabled. -/
def ArmedInv (s : RState) : Prop :=
  (s.autoDisableArmed = true → s.voiceWakeActivated = true) ∧
  (s.voiceWakeActivated = true → s.enabled = true)

/-! Helper lemmas. -/

lemma vadRunAnySpeech_append (xs ys : List ℚ) (f : ℚ) :
    vadRunAnySpeech (xs ++ ys) f =
      (vadRunAnySpeech xs f || vadRunAnySpeech ys (vadFloorAfter xs f)) := by
  induction xs generalizing f with
  | nil => simp [vadRunAnySpeech, vadFloorAfter]
  | cons r rs ih => simp [vadRunAnySpeech, vadFloorAfter, ih, Bool.or_assoc]

lemma vadNote_zero (f : ℚ) (h : 25 / 230000000 ≤ f) :
    vadNote 0 f = (false, 23 / 25 * f, max minSpeechRms (23 / 25 * f)) := by
  have h0 : (0 : ℚ) < f := lt_of_lt_of_le (by norm_num) h
  have e1 : f + (0 - f) * (8 / 100) = 23 / 25 * f := by ring
  have hcl2 : (1 / 10000000 : ℚ) ≤ 23 / 25 * f := by linarith
  have hsp : ¬ (max minSpeechRms (23 / 25 * f * speechBoostFactor) * (9 / 10) ≤ 0) := by
    have h1 : (minSpeechRms : ℚ) ≤ max minSpeechRms (23 / 25 * f * speechBoostFactor) :=
      le_max_left _ _
    have h2 : (0 : ℚ) < minSpeechRms := by norm_num [minSpeechRms]
    nlinarith
  simp only [vadNote, if_pos h0, e1, max_eq_right hcl2]
  simp [decide_eq_false hsp, speechBoostFactor]
  exact Or.inr h0

lemma vadZerosRun (k : Nat) (f : ℚ) (hf : 25 / 230000000 ≤ (23 / 25) ^ k * f) (h0 : 0 < f) :
    vadRunAnySpeech (List.replicate k 0) f = false ∧
      vadFloorAfter (List.replicate k 0) f = (23 / 25) ^ k * f := by
  induction k generalizing f with
  | zero => simp [vadRunAnySpeech, vadFloorAfter]
  | succ k ih =>
    have hk : ((23 / 25 : ℚ) ^ k) * ((23 / 25) * f) = (23 / 25) ^ (k + 1) * f := by ring
    have hle : (23 / 25 : ℚ) ^ (k + 1) * f ≤ f := by
      have h1 : (23 / 25 : ℚ) ^ (k + 1) ≤ 1 := by
        apply pow_le_one₀ <;> norm_num
      nlinarith
    have hstep : (25 / 230000000 : ℚ) ≤ f := le_trans hf hle
    have hnote := vadNote_zero f hstep
    have ih2 := ih ((23 / 25) * f) (by rw [hk]; exact hf) (by positivity)
    constructor
    · simp [List.replicate_succ, vadRunAnySpeech, hnote, ih2.1]
    · simp [List.replicate_succ, vadFloorAfter, hnote, ih2.2, hk]

lemma vadFinalNote (p : ℚ) (hplt : p < cexRms) (hpge : (25 / 230000000 : ℚ) ≤ p) :
    (vadNote cexRms p).1 = true := by
  have hna : ¬ (cexRms < p) := not_lt.mpr hplt.le
  have hcl : (1 / 10000000 : ℚ) ≤ p + (cexRms - p) * (1 / 100) := by linarith
  have hr : cexRms < minSpeechRms := by norm_num [cexRms, minSpeechRms]
  have hfl : p + (cexRms - p) * (1 / 100) ≤ minSpeechRms := by linarith
  have hth : max minSpeechRms ((p + (cexRms - p) * (1 / 100)) * speechBoostFactor)
      = minSpeechRms := by
    rw [max_eq_left]
    simpa [speechBoostFactor] using hfl
  have hgood : minSpeechRms * (9 / 10) ≤ cexRms := by
    norm_num [minSpeechRms, cexRms]
  simp only [vadNote, if_neg hna, max_eq_right hcl, hth]
  simp [hgood]

lemma vadNote_quiet (r floor : ℚ) (hr : r < minSpeechRms * (9 / 10)) :
    (vadNote r floor).1 = false := by
  simp only [vadNote]
  apply decide_eq_false
  intro hc
  have h1 : (minSpeechRms : ℚ) ≤ max minSpeechRms
      (max (1 / 10000000) (floor + (r - floor) * (if r < floor then (8 : ℚ) / 100 else 1 / 100))
        * speechBoostFactor) := le_max_left _ _
  linarith

lemma vadNote_floor_converges (r floor : ℚ) (hr : 1 / 10000000 ≤ r)
    (hf : 1 / 10000000 ≤ floor) :
    |(vadNote r floor).2.1 - r| ≤ (99 / 100) * |floor - r| := by
  by_cases hlt : r < floor
  · have hge : r ≤ floor + (r - floor) * (8 / 100) := by linarith
    have hclamp : (1 / 10000000 : ℚ) ≤ floor + (r - floor) * (8 / 100) := le_trans hr hge
    simp only [vadNote, if_pos hlt, max_eq_right hclamp]
    rw [abs_of_nonneg (by linarith), abs_of_nonneg (by linarith)]
    linarith
  · push_neg at hlt
    have hge : floor ≤ floor + (r - floor) * (1 / 100) := by nlinarith
    have hclamp : (1 / 10000000 : ℚ) ≤ floor + (r - floor) * (1 / 100) := le_trans hf hge
    have hnlt : ¬ (r < floor) := not_lt.mpr hlt
    simp only [vadNote, if_neg hnlt, max_eq_right hclamp]
    rw [abs_of_nonpos (by linarith), abs_of_nonpos (by linarith)]
    linarith

lemma jsTrim_of_clean (l : List Char) (c d : Char) (cs ds : List Char)
    (hl : l = c :: cs) (hc : isWsChar c = false)
    (hr : l.reverse = d :: ds) (hd : isWsChar d = false) :
    jsTrim l = l := by
  have h1 : l.dropWhile isWsChar = l := by
    rw [hl, List.dropWhile_cons, hc]
    simp
  rw [jsTrim, h1, hr, List.dropWhile_cons, hd]
  simp [← hr]

lemma count_pushPreRoll (pr : List Nat) (c : Nat) (hmem : c ∉ pr) :
    (pushPreRoll pr c).count c = 1 := by
  simp only [pushPreRoll]
  split
  · rename_i hlen
    rcases pr with _ | ⟨p0, pr2⟩
    · simp at hlen
    · have hc0 : c ∉ pr2 := fun hh => hmem (List.mem_cons_of_mem _ hh)
      simp [List.count_append, List.count_eq_zero_of_not_mem hc0]
  · simp [List.count_append, List.count_eq_zero_of_not_mem hmem]

lemma mem_pushPreRoll {pr : List Nat} {c x : Nat} (h : x ∈ pushPreRoll pr c) :
    x ∈ pr ∨ x = c := by
  simp only [pushPreRoll] at h
  have h2 : x ∈ pr ++ [c] := by
    split at h
    · exact (List.tail_sublist _).mem h
    · exact h
  rcases List.mem_append.mp h2 with h3 | h3
  · exact Or.inl h3
  · exact Or.inr (List.mem_singleton.mp h3)

lemma nodup_pushPreRoll {pr : List Nat} {c : Nat} (hn : pr.Nodup) (hc : c ∉ pr) :
    (pushPreRoll pr c).Nodup := by
  have h2 : (pr ++ [c]).Nodup := by
    rw [List.nodup_append]
    refine ⟨hn, List.nodup_singleton c, ?_⟩
    intro x hx hx1
    exact hc ((List.mem_singleton.mp hx1) ▸ hx)
  simp only [pushPreRoll]
  split
  · exact h2.sublist (List.tail_sublist _)
  · exact h2

lemma wakeChunkAsm_quiet (tm now : Int) (c : Nat) (ch pr : List Nat) (dl : Option Int) :
    (wakeChunkAsm tm now c false ⟨false, ch, pr, dl⟩)
      = (⟨false, ch, pushPreRoll pr c, dl⟩, none) := by
  simp [wakeChunkAsm]

lemma wakeChunkAsm_onset (tm now : Int) (c : Nat) (ch pr : List Nat) (dl : Option Int) :
    (wakeChunkAsm tm now c true ⟨false, ch, pr, dl⟩)
      = (⟨true, [c], pr, some (now + tm)⟩, none) := by
  simp [wakeChunkAsm]

lemma wakeChunkAsm_capturing (tm now : Int) (c : Nat) (ch pr : List Nat) (dl : Option Int) :
    (wakeChunkAsm tm now c true ⟨true, ch, pr, dl⟩)
      = (⟨true, ch ++ [c], pr, dl⟩, none) := by
  simp [wakeChunkAsm]

lemma wakeChunkAsm_finalize (tm now : Int) (c : Nat) (ch pr : List Nat) (dl : Option Int) :
    (wakeChunkAsm tm now c false ⟨true, ch, pr, dl⟩)
      = (⟨false, [], [], none⟩, some (pr ++ (ch ++ [c]))) := by
  simp [wakeChunkAsm]

lemma nodup_buffers_append {ch pr : List Nat} {c : Nat}
    (hn : (pr ++ ch).Nodup) (hc : c ∉ pr ++ ch) : (pr ++ (ch ++ [c])).Nodup := by
  rw [← List.append_assoc]
  rw [List.nodup_append]
  refine ⟨hn, List.nodup_singleton c, ?_⟩
  intro x hx hx1
  exact hc ((List.mem_singleton.mp hx1) ▸ hx)

lemma wakeStepEv_inv (tm : Int) (e : WEvent) (a : WakeAsm)
    (hn : (a.preRoll ++ a.chunks).Nodup)
    (hc : ∀ c ∈ wEventIds [e], c ∉ a.preRoll ++ a.chunks) :
    (((wakeStepEv tm e a).1.preRoll ++ (wakeStepEv tm e a).1.chunks).Nodup ∧
     (∀ x ∈ (wakeStepEv tm e a).1.preRoll ++ (wakeStepEv tm e a).1.chunks,
        x ∈ a.preRoll ++ a.chunks ∨ x ∈ wEventIds [e]) ∧
     (∀ u, (wakeStepEv tm e a).2 = some u → u.Nodup)) := by
  obtain ⟨cap, ch, pr, dl⟩ := a
  cases e with
  | timeout =>
    refine ⟨by simp [wakeStepEv, wakeTimeoutAsm], by simp [wakeStepEv, wakeTimeoutAsm], ?_⟩
    intro u hu
    simp only [wakeStepEv, wakeTimeoutAsm] at hu
    split at hu
    · simp at hu
    · simp only [Option.some.injEq] at hu
      exact hu ▸ hn
  | frame now c sp =>
    have hcc : c ∉ pr ++ ch := hc c (by simp [wEventIds])
    have hpr : pr.Nodup := (List.nodup_append.mp hn).1
    have hch : ch.Nodup := (List.nodup_append.mp hn).2.1
    have hdisj := (List.nodup_append.mp hn).2.2
    have hcpr : c ∉ pr := fun hh => hcc (List.mem_append.mpr (Or.inl hh))
    have hcch : c ∉ ch := fun hh => hcc (List.mem_append.mpr (Or.inr hh))
    cases sp <;> cases cap
    · simp only [wakeStepEv, wakeChunkAsm_quiet]
      refine ⟨?_, ?_, by simp⟩
      · rw [List.nodup_append]
        refine ⟨nodup_pushPreRoll hpr hcpr, hch, ?_⟩
        intro x hx hx2
        rcases mem_pushPreRoll hx with h3 | h3
        · exact hdisj h3 hx2
        · exact hcch (h3 ▸ hx2)
      · intro x hx
        rcases List.mem_append.mp hx with h3 | h3
        · rcases mem_pushPreRoll h3 with h4 | h4
          · exact Or.inl (List.mem_append.mpr (Or.inl h4))
          · exact Or.inr (by simp [wEventIds, h4])
        · exact Or.inl (List.mem_append.mpr (Or.inr h3))
    · simp only [wakeStepEv, wakeChunkAsm_finalize]
      refine ⟨by simp, by simp, ?_⟩
      intro u hu
      simp only [Option.some.injEq] at hu
      subst hu
      exact nodup_buffers_append hn hcc
    · simp only [wakeStepEv, wakeChunkAsm_onset]
      refine ⟨?_, ?_, by simp⟩
      · rw [List.nodup_append]
        exact ⟨hpr, List.nodup_singleton c,
          fun x hx hx2 => hcpr ((List.mem_singleton.mp hx2) ▸ hx)⟩
      · intro x hx
        rcases List.mem_append.mp hx with h3 | h3
        · exact Or.inl (List.mem_append.mpr (Or.inl h3))
        · exact Or.inr (by simp [wEventIds, List.mem_singleton.mp h3])
    · simp only [wakeStepEv, wakeChunkAsm_capturing]
      refine ⟨nodup_buffers_append hn hcc, ?_, by simp⟩
      intro x hx
      rcases List.mem_append.mp hx with h3 | h3
      · exact Or.inl (List.mem_append.mpr (Or.inl h3))
      · rcases List.mem_append.mp h3 with h4 | h4
        · exact Or.inl (List.mem_append.mpr (Or.inr h4))
        · exact Or.inr (by simp [wEventIds, List.mem_singleton.mp h4])

lemma wEventIds_cons (e : WEvent) (es : List WEvent) :
    wEventIds (e :: es) = wEventIds [e] ++ wEventIds es := by
  cases e <;> simp [wEventIds]

lemma wakeRunUtts_nodup (tm : Int) :
    ∀ (evs : List WEvent) (a : WakeAsm),
      (a.preRoll ++ a.chunks).Nodup →
      (∀ x ∈ a.preRoll ++ a.chunks, x ∉ wEventIds evs) →
      (wEventIds evs).Nodup →
      ∀ u ∈ wakeRunUtts tm evs a, u.Nodup := by
  intro evs
  induction evs with
  | nil => intro a _ _ _ u hu; simp [wakeRunUtts] at hu
  | cons e es ih =>
    intro a hn hf hids u hu
    rw [wEventIds_cons] at hids
    have hstep := wakeStepEv_inv tm e a hn
      (fun c hc1 hmem => hf c hmem (by rw [wEventIds_cons]; exact List.mem_append.mpr (Or.inl hc1)))
    have hn2 := hstep.1
    have hf2 : ∀ x ∈ (wakeStepEv tm e a).1.preRoll ++ (wakeStepEv tm e a).1.chunks,
        x ∉ wEventIds es := by
      intro x hx hcon
      rcases hstep.2.1 x hx with hmem | hid
      · exact hf x hmem (by rw [wEventIds_cons]; exact List.mem_append.mpr (Or.inr hcon))
      · exact (List.nodup_append.mp hids).2.2 hid hcon
    have hids2 : (wEventIds es).Nodup := (List.nodup_append.mp hids).2.1
    simp only [wakeRunUtts] at hu
    rcases List.mem_append.mp hu with hleft | hright
    · rcases hr : (wakeStepEv tm e a).2 with _ | u0
      · rw [hr] at hleft; simp at hleft
      · rw [hr] at hleft
        simp only [List.mem_singleton] at hleft
        exact hleft ▸ hstep.2.2 u0 hr
    · exact ih _ hn2 hf2 hids2 u hright

lemma convAssembleStep_ctrl (now : Int) (c : Nat) (sp : Bool) (s : RState) :
    ((convAssembleStep now c sp s).1.autoDisableArmed = s.autoDisableArmed ∧
     (convAssembleStep now c sp s).1.voiceWakeActivated = s.voiceWakeActivated ∧
     (convAssembleStep now c sp s).1.enabled = s.enabled) := by
  cases hcap : s.capturingSpeech <;> cases hsp : sp <;>
    simp [convAssembleStep, resetCaptureBuffers, hcap, hsp] <;>
    repeat' split <;> simp_all

lemma convChunkStep_ctrl (now : Int) (c : Nat) (sp : Bool) (s : RState) :
    ((convChunkStep now c sp s).1.autoDisableArmed = s.autoDisableArmed ∧
     (convChunkStep now c sp s).1.voiceWakeActivated = s.voiceWakeActivated ∧
     (convChunkStep now c sp s).1.enabled = s.enabled) := by
  cases hsp : sp
  all_goals simp [convChunkStep, startListening, stopPlayback, resetCaptureBuffers, hsp]
  all_goals repeat' split
  all_goals try exact convAssembleStep_ctrl now c _ _
  all_goals simp_all

lemma utteranceStep_ctrl (t : List Char) (s : RState) :
    ((utteranceStep t s).1.voiceWakeActivated = s.voiceWakeActivated ∧
     (utteranceStep t s).1.enabled = s.enabled ∧
     ((utteranceStep t s).1.autoDisableArmed = true → s.autoDisableArmed = true)) := by
  refine ⟨?_, ?_, ?_⟩ <;>
    simp only [utteranceStep, resumeListeningIfNeeded, startCapture, startListening,
      stopCapture, resetCaptureBuffers, clearVoiceWakeAutoDisable]
  all_goals repeat' split
  all_goals first
    | rfl
    | (exact fun h => h)
    | (intro h; exact absurd h (by simp))

lemma setEnabled_armedInv (e : Bool) (s : RState) (h : ArmedInv s) :
    ArmedInv (setEnabled e s) := by
  obtain ⟨h1, h2⟩ := h
  simp only [setEnabled, startRun, stopRun, startCapture, stopCapture, startListening,
    resetCaptureBuffers, stopPlayback, clearVoiceWakeAutoDisable, startVoiceWakeListener]
  cases e <;> repeat' split
  all_goals unfold ArmedInv
  all_goals first
    | (exact ⟨h1, h2⟩)
    | simp_all

lemma setVoiceWakeEnabled_armedInv (e : Bool) (s : RState) (h : ArmedInv s) :
    ArmedInv (setVoiceWakeEnabled e s) := by
  obtain ⟨h1, h2⟩ := h
  simp only [setVoiceWakeEnabled, startVoiceWakeListener, clearVoiceWakeAutoDisable]
  cases e <;> repeat' split
  all_goals unfold ArmedInv
  all_goals first
    | (exact ⟨h1, h2⟩)
    | simp_all

lemma stepEv_armedInv (e : Ev) (s : RState) (h : ArmedInv s) : ArmedInv (stepEv e s) := by
  obtain ⟨h1, h2⟩ := h
  cases e with
  | manualOn => exact setEnabled_armedInv true s ⟨h1, h2⟩
  | manualOff => exact setEnabled_armedInv false s ⟨h1, h2⟩
  | voiceWakeOn => exact setVoiceWakeEnabled_armedInv true s ⟨h1, h2⟩
  | voiceWakeOff => exact setVoiceWakeEnabled_armedInv false s ⟨h1, h2⟩
  | wakeActivate =>
    simp only [stepEv, wakeActivate]
    split
    · exact ⟨h1, h2⟩
    · simp only [setEnabled, startRun, startCapture, stopCapture, startListening,
        resetCaptureBuffers, stopPlayback, clearVoiceWakeAutoDisable, startVoiceWakeListener,
        stopRun]
      repeat' split
      all_goals unfold ArmedInv
      all_goals simp_all
  | playbackComplete =>
    simp only [stepEv, playbackComplete, startVoiceWakeAutoDisable, clearVoiceWakeAutoDisable]
    split <;> constructor <;> simp_all
  | timerFire =>
    simp only [stepEv, autoDisableFire]
    split
    · rename_i harm
      have hen : s.enabled = true := h2 (h1 harm)
      simp only [setEnabled, stopRun, stopCapture, stopPlayback, clearVoiceWakeAutoDisable,
        startVoiceWakeListener, startRun, startCapture, startListening, resetCaptureBuffers]
      repeat' split
      all_goals unfold ArmedInv
      all_goals simp_all
    · exact ⟨h1, h2⟩
  | utterance t =>
    have hc := utteranceStep_ctrl t s
    simp only [stepEv]
    exact ⟨fun hh => by rw [hc.1]; exact h1 (hc.2.2 hh),
           fun hh => by rw [hc.2.1]; exact h2 (hc.1 ▸ hh)⟩
  | convChunk now c sp =>
    have hc := convChunkStep_ctrl now c sp s
    simp only [stepEv]
    exact ⟨fun hh => by rw [hc.2.1]; exact h1 (hc.1 ▸ hh),
           fun hh => by rw [hc.2.2]; exact h2 (hc.2.1 ▸ hh)⟩
  | wakeChunk tm now c sp g =>
    simp only [stepEv, wakeChunkStep]
    repeat' split
    all_goals exact ⟨h1, h2⟩
  | wakeTimeout =>
    exact ⟨h1, h2⟩

lemma foldl_armedInv (evs : List Ev) :
    ∀ (a : RState), ArmedInv a → ArmedInv (evs.foldl (fun s e => stepEv e s) a) := by
  induction evs with
  | nil => exact fun a ha => ha
  | cons e es ih => exact fun a ha => ih _ (stepEv_armedInv e a ha)

lemma runEv_armedInv (evs : List Ev) : ArmedInv (runEv evs) :=
  foldl_armedInv evs RState.init (by constructor <;> simp [RState.init])

/-! Claim theorems. -/

/-- C1: the claim that at most one of the wake listener and the
conversation holds the capture resource fails on the code.  After
enabling voice wake and activating through a wake match, the wake
listener is still running (it holds its own capture stream;
`setEnabled`/activation never aborts it — it only skips frames via the
`if (this.enabled) continue` guard), while the conversation has started
its own capture stream: both hold capture at once. -/
theorem C1_capture_exclusivity_bug :
    (runEv [Ev.voiceWakeOn, Ev.wakeActivate]).enabled = true ∧
    (runEv [Ev.voiceWakeOn, Ev.wakeActivate]).wakeListenerActive = true ∧
    (runEv [Ev.voiceWakeOn, Ev.wakeActivate]).convCaptureActive = true := by
  decide

/-- C2 counterexample: a step of a superseded turn that resumes after its
captured generation no longer matches can change observable state.  In
`c2State`, turn 1 has been superseded (turnGen = 2), and turn 2 has a
partially captured segment; when turn 1's `waitForAssistantText` returns
null (its poll loop self-discards on the stale turn), `sendAndSpeak`
calls `resumeListeningIfNeeded` without re-checking the generations,
destroying turn 2's capture buffer and restarting the capture stream. -/
theorem C2_counterexample :
    isTurn 1 c2State = false ∧
    c2State.audioChunks = [7] ∧
    (afterWaitReply 1 1 none c2State).audioChunks = [] ∧
    (afterWaitReply 1 1 none c2State).captureStreamId ≠ c2State.captureStreamId := by
  decide

/-- C2 (amended): a barge-in during Speaking (speech VAD verdict with
`lastSpokenText` longer than 3) increments `turnGen` and halts playback;
the resumption points after the agent dispatch, after a non-null
assistant reply, and after playback drop stale turns without changing the
observable state (phase, capture buffers, capture stream) — but the
reply-wait timeout path (`afterWaitReply` with a null reply) resumes
listening without any staleness check, resetting capture buffers and
restarting the capture stream even for a superseded turn. -/
theorem C2_amended :
    (∀ (s : RState) (now : Int) (c : Nat),
        s.paused = false → s.phase = .speaking → 3 < s.lastSpokenTextLen →
        (convChunkStep now c true s).1.turnGen = s.turnGen + 1 ∧
        (convChunkStep now c true s).1.playbackActive = false) ∧
    (∀ (gen turn : Nat) (s : RState),
        (isCurrent gen s && isTurn turn s) = false →
        afterChatSend gen turn s = (s, false)) ∧
    (∀ (gen turn sl : Nat) (s : RState),
        isTurn turn s = false → afterWaitReply gen turn (some sl) s = s) ∧
    (∀ (gen turn : Nat) (s : RState),
        (isCurrent gen s && isTurn turn s) = false →
        (afterPlayback gen turn s).phase = s.phase ∧
        (afterPlayback gen turn s).audioChunks = s.audioChunks ∧
        (afterPlayback gen turn s).preRoll = s.preRoll ∧
        (afterPlayback gen turn s).capturingSpeech = s.capturingSpeech ∧
        (afterPlayback gen turn s).convCaptureActive = s.convCaptureActive ∧
        (afterPlayback gen turn s).captureStreamId = s.captureStreamId) ∧
    (∀ (gen turn : Nat) (s : RState), s.paused = false →
        afterWaitReply gen turn none s = startCapture (startListening s)) := by
  refine ⟨?_, ?_, ?_, ?_, ?_⟩
  · intro s now c hp hph hl
    simp [convChunkStep, hp, hph, shouldInterrupt, hl, startListening, stopPlayback,
      resetCaptureBuffers]
  · intro gen turn s h
    simp [afterChatSend, h]
  · intro gen turn sl s h
    simp [afterWaitReply, h]
  · intro gen turn s h
    have h2 : (isCurrent gen { s with playbackActive := false } &&
        isTurn turn { s with playbackActive := false }) = false := by
      simpa [isCurrent, isTurn] using h
    simp only [afterPlayback, startVoiceWakeAutoDisable, clearVoiceWakeAutoDisable]
    repeat' split
    all_goals simp_all [isCurrent, isTurn]
  · intro gen turn s hp
    simp [afterWaitReply, resumeListeningIfNeeded, hp]

/-- C2 witness: the amended statement applied at concrete inputs. -/
theorem C2_amended_witness :
    ((convChunkStep 0 1 true
        { RState.init with enabled := true, phase := .speaking,
                           lastSpokenTextLen := 5 }).1.turnGen = 1 ∧
      (convChunkStep 0 1 true
        { RState.init with enabled := true, phase := .speaking,
                           lastSpokenTextLen := 5 }).1.playbackActive = false) ∧
    afterChatSend 0 1 RState.init = (RState.init, false) ∧
    afterWaitReply 0 1 (some 5) RState.init = RState.init ∧
    (afterPlayback 0 1 RState.init).phase = RState.init.phase ∧
    afterWaitReply 0 1 none RState.init = startCapture (startListening RState.init) :=
  ⟨C2_amended.1 _ 0 1 rfl rfl (by decide),
   C2_amended.2.1 0 1 RState.init (by decide),
   C2_amended.2.2.1 0 1 5 RState.init (by decide),
   (C2_amended.2.2.2.1 0 1 RState.init (by decide)).1,
   C2_amended.2.2.2.2 0 1 RState.init rfl⟩

/-- C3 counterexample: the wake listener's assembler does not wait for
700 ms of silence.  A speech frame at t = 0 followed by a non-speech
frame at t = 100 finalizes the segment immediately, although silence has
persisted only 100 ms (less than 700 ms) and the captured duration is
100 ms (far below both the 5000 ms phrase timeout and the 12 s cap). -/
theorem C3_counterexample :
    (wakeChunkAsm 5000 100 1 false (wakeChunkAsm 5000 0 0 true WakeAsm.init).1).2
        = some [0, 1] ∧
    (100 : Int) - 0 < 700 ∧ (100 : Int) - 0 < 5000 ∧ (100 : Int) - 0 < 12000 := by
  refine ⟨by decide, by decide, by decide, by decide⟩

/-- C3 (amended): the conversation loop's assembler finalizes exactly when
capturing and either the capture is older than 12 s or 700 ms have passed
since the last speech frame; the wake listener's assembler instead
finalizes as soon as any non-speech frame arrives while capturing, or
when the phrase timeout (default 5000 ms, scheduled at speech onset as
`now + phraseTimeoutMs`) fires with a non-empty chunk buffer. -/
theorem C3_amended :
    (∀ (s : RState) (now : Int) (c : Nat) (sp : Bool),
        s.paused = false → s.phase = .listening →
        ((convChunkStep now c sp s).2.isSome ↔
          ((s.capturingSpeech || sp) = true ∧
            ((match (if s.capturingSpeech then s.captureStartedAt else some now) with
               | some t => 12000 < now - t
               | none => False) ∨
             (match (if sp then some now else s.lastHeardAt) with
               | some h => 700 ≤ now - h
               | none => False))))) ∧
    (∀ (tm now : Int) (c : Nat) (a : WakeAsm), a.capturing = true →
        (wakeChunkAsm tm now c false a).2 = some (a.preRoll ++ (a.chunks ++ [c]))) ∧
    (∀ (tm now : Int) (c : Nat) (a : WakeAsm), a.capturing = false →
        (wakeChunkAsm tm now c true a).1.deadline = some (now + tm)) ∧
    (∀ a : WakeAsm, a.chunks ≠ [] → (wakeTimeoutAsm a).2 = some (a.preRoll ++ a.chunks)) := by
  refine ⟨?_, ?_, ?_, ?_⟩
  · intro s now c sp hp hph
    cases hcap : s.capturingSpeech <;> cases hsp : sp <;>
      rcases hst : s.captureStartedAt with _ | t0 <;>
      rcases hlh : s.lastHeardAt with _ | h0 <;>
      simp [convChunkStep, convAssembleStep, hp, hph, hcap, hsp, hst, hlh, vadShouldFinalize,
        resetCaptureBuffers, decide_eq_true_eq] <;>
      (try split) <;>
      simp_all [decide_eq_true_eq]
  · intro tm now c a h
    simp [wakeChunkAsm, h]
  · intro tm now c a h
    simp [wakeChunkAsm, h]
  · intro a h
    simp [wakeTimeoutAsm, h]

/-- C3 witness: the amended statement applied at concrete inputs. -/
theorem C3_amended_witness :
    ((convChunkStep 800 1 false
        { RState.init with
            phase := .listening
            capturingSpeech := true
            captureStartedAt := some 0
            lastHeardAt := some 0
            audioChunks := [0] }).2.isSome ↔
      ((true || false) = true ∧
        ((match (some 0 : Option Int) with
           | some t => 12000 < (800 : Int) - t
           | none => False) ∨
         (match (some 0 : Option Int) with
           | some h => 700 ≤ (800 : Int) - h
           | none => False)))) ∧
    (wakeChunkAsm 5000 7 3 false ⟨true, [2], [1], some 5000⟩).2 = some ([1] ++ ([2] ++ [3])) ∧
    (wakeChunkAsm 5000 7 3 true ⟨false, [], [1], none⟩).1.deadline = some (7 + 5000) ∧
    (wakeTimeoutAsm ⟨true, [2], [1], some 5000⟩).2 = some ([1] ++ [2]) :=
  ⟨C3_amended.1 _ 800 1 false rfl rfl,
   C3_amended.2.1 5000 7 3 _ rfl,
   C3_amended.2.2.1 5000 7 3 _ rfl,
   C3_amended.2.2.2 _ (by decide)⟩

/-- C4 counterexample: the 10% hysteresis band lets a sub-threshold frame
count as speech once the noise floor has decayed.  After 37 silent frames
(RMS 0, each below `minSpeechRms`), one frame with RMS `5/1048576`
(realized by `cexChunk`, and still below `minSpeechRms = 5e-6`) makes
`note` report speech, because `rms >= 0.9 * threshold` already holds. -/
theorem C4_counterexample :
    IsRmsOf (List.replicate 1024 0) 0 ∧ IsRmsOf cexChunk cexRms ∧
    (0 : ℚ) < minSpeechRms ∧ cexRms < minSpeechRms ∧
    vadRunAnySpeech (List.replicate 37 0 ++ [cexRms]) vadInitialNoiseFloor = true := by
  refine ⟨?_, ?_, by norm_num [minSpeechRms], by norm_num [cexRms, minSpeechRms], ?_⟩
  · refine ⟨le_refl 0, ?_⟩
    rw [List.map_replicate, List.sum_replicate, List.length_replicate]
    norm_num
  · refine ⟨by norm_num [cexRms], ?_⟩
    rw [cexChunk, List.map_append, List.sum_append, List.map_replicate,
      List.map_replicate, List.sum_replicate, List.sum_replicate]
    norm_num [cexRms]
  · have hz := vadZerosRun 37 (1 / 10000) (by norm_num) (by norm_num)
    have hinit : vadInitialNoiseFloor = 1 / 10000 := rfl
    rw [vadRunAnySpeech_append, hinit, hz.1, hz.2]
    have hfin := vadFinalNote ((23 / 25) ^ 37 * (1 / 10000)) (by norm_num [cexRms]) (by norm_num)
    simp only [vadRunAnySpeech, hfin, Bool.false_or, Bool.true_or, Bool.or_false]

/-- C4 (amended): with every frame RMS below `0.9 * minSpeechRms` the VAD
never reports speech (the hysteresis bound, rather than `minSpeechRms`
itself, is the true no-speech threshold), and each `note` call moves the
noise floor toward the input RMS by a factor of at least 1/100 (fast
decay 0.92 below the floor, slow rise 0.99 above), for values above the
1e-7 clamp. -/
theorem C4_amended :
    (∀ (rs : List ℚ) (floor : ℚ), (∀ r ∈ rs, r < minSpeechRms * (9 / 10)) →
        vadRunAnySpeech rs floor = false) ∧
    (∀ (r floor : ℚ), 1 / 10000000 ≤ r → 1 / 10000000 ≤ floor →
        |(vadNote r floor).2.1 - r| ≤ (99 / 100) * |floor - r|) := by
  constructor
  · intro rs
    induction rs with
    | nil => intro floor _; rfl
    | cons r rest ih =>
      intro floor h
      have h1 := vadNote_quiet r floor (h r (by simp))
      have h2 := ih (vadNote r floor).2.1 (fun x hx => h x (by simp [hx]))
      simp [vadRunAnySpeech, h1, h2]
  · exact vadNote_floor_converges

/-- C4 witness: the amended statement applied at concrete inputs. -/
theorem C4_amended_witness :
    vadRunAnySpeech [1 / 1000000] vadInitialNoiseFloor = false ∧
    |(vadNote 1 1).2.1 - 1| ≤ (99 / 100) * |1 - 1| :=
  ⟨C4_amended.1 [1 / 1000000] vadInitialNoiseFloor
      (by intro r hr; rw [List.mem_singleton.mp hr]; norm_num [minSpeechRms]),
   C4_amended.2 1 1 (by norm_num) (by norm_num)⟩

/-- C5 counterexample: manual activation does not clear the auto-disable
timer.  After a wake activation and a completed playback the timer is
armed; the subsequent manual activation (`setEnabled(true)` while already
enabled) returns early and leaves the timer armed, refuting the clause
that manual activation overriding wake status clears the timer. -/
theorem C5_counterexample :
    (runEv [Ev.voiceWakeOn, Ev.wakeActivate, Ev.playbackComplete]).autoDisableArmed = true ∧
    (runEv [Ev.voiceWakeOn, Ev.wakeActivate, Ev.playbackComplete]).enabled = true ∧
    (runEv [Ev.voiceWakeOn, Ev.wakeActivate, Ev.playbackComplete,
        Ev.manualOn]).autoDisableArmed = true := by
  decide

/-- C5 (amended): along every event trace, a timer exists only while the
wake-activated flag is set; manual activation never arms the timer (it
leaves the timer field unchanged, and while already enabled it is a
no-op, so a pending wake timer survives it); manual deactivation clears
the timer without rearming. -/
theorem C5_amended :
    (∀ evs : List Ev,
        (runEv evs).autoDisableArmed = true → (runEv evs).voiceWakeActivated = true) ∧
    (∀ s : RState, (setEnabled true s).autoDisableArmed = s.autoDisableArmed) ∧
    (∀ s : RState, s.enabled = true → (setEnabled false s).autoDisableArmed = false) ∧
    (∀ s : RState, s.enabled = true → setEnabled true s = s) := by
  refine ⟨?_, ?_, ?_, ?_⟩
  · exact fun evs h => (runEv_armedInv evs).1 h
  · intro s
    simp only [setEnabled, startRun, startCapture, stopCapture, startListening,
      resetCaptureBuffers, stopPlayback, clearVoiceWakeAutoDisable, startVoiceWakeListener,
      stopRun]
    repeat' split
    all_goals simp_all
  · intro s h
    simp only [setEnabled, stopRun, stopCapture, stopPlayback, clearVoiceWakeAutoDisable,
      startVoiceWakeListener]
    repeat' split
    all_goals simp_all
  · intro s h
    simp [setEnabled, h]

/-- C5 witness: the amended statement applied at concrete inputs. -/
theorem C5_amended_witness :
    (runEv [Ev.voiceWakeOn, Ev.wakeActivate,
        Ev.playbackComplete]).voiceWakeActivated = true ∧
    (setEnabled true RState.init).autoDisableArmed = RState.init.autoDisableArmed ∧
    (setEnabled false { RState.init with enabled := true }).autoDisableArmed = false ∧
    setEnabled true { RState.init with enabled := true } = { RState.init with enabled := true } :=
  ⟨C5_amended.1 [Ev.voiceWakeOn, Ev.wakeActivate, Ev.playbackComplete] (by decide),
   C5_amended.2.1 RState.init,
   C5_amended.2.2.1 _ rfl,
   C5_amended.2.2.2 _ rfl⟩

/-- C6 counterexample: a finalized segment whose transcript is empty does
not clear a pending auto-disable timer.  After a wake activation and a
completed playback the timer is armed and the phase is Listening; a
finalized segment transcribed to the empty string leaves the timer
armed (`transcribeAndSend` returns to listening before ever reaching the
`clearVoiceWakeAutoDisable` call inside `finalizeTranscript`). -/
theorem C6_counterexample :
    (runEv [Ev.voiceWakeOn, Ev.wakeActivate, Ev.playbackComplete]).autoDisableArmed = true ∧
    (runEv [Ev.voiceWakeOn, Ev.wakeActivate, Ev.playbackComplete]).phase = .listening ∧
    (runEv [Ev.voiceWakeOn, Ev.wakeActivate, Ev.playbackComplete,
        Ev.utterance []]).autoDisableArmed = true := by
  decide

/-- C6 (amended): a finalized segment whose transcript trims to non-empty
always clears a pending auto-disable timer (in every state, hence in the
Listening, Thinking and Speaking phases); a segment whose transcript
trims to empty leaves the timer untouched. -/
theorem C6_amended :
    (∀ (t : List Char) (s : RState), jsTrim t ≠ [] →
        (utteranceStep t s).1.autoDisableArmed = false) ∧
    (∀ (t : List Char) (s : RState), jsTrim t = [] →
        (utteranceStep t s).1.autoDisableArmed = s.autoDisableArmed) := by
  constructor
  · intro t s h
    simp only [utteranceStep, resumeListeningIfNeeded, startCapture, startListening,
      stopCapture, resetCaptureBuffers, clearVoiceWakeAutoDisable]
    repeat' split
    all_goals simp_all
  · intro t s h
    simp only [utteranceStep, resumeListeningIfNeeded, startCapture, startListening,
      stopCapture, resetCaptureBuffers, clearVoiceWakeAutoDisable]
    repeat' split
    all_goals simp_all

/-- C6 witness: the amended statement applied at concrete inputs. -/
theorem C6_amended_witness :
    (utteranceStep "hi".toList
        { RState.init with autoDisableArmed := true }).1.autoDisableArmed = false ∧
    (utteranceStep "  ".toList
        { RState.init with autoDisableArmed := true }).1.autoDisableArmed
      = ({ RState.init with autoDisableArmed := true } : RState).autoDisableArmed :=
  ⟨C6_amended.1 "hi".toList _ (by decide), C6_amended.2 "  ".toList _ (by decide)⟩

/-- C7: wake-phrase matching is the prefix test on normalized forms
(lower-case, strip `.,!?;:`, collapse whitespace); for the wake phrase
"hey openclaw", the transcripts "hey, OPENCLAW!" and "hey openclaw" both
match and "heyopenclaw" (no space) does not; and the match result is
invariant under normalization of the transcript (transcripts with equal
normal forms match exactly the same wake phrases). -/
theorem C7_wake_match_normalization :
    matchesWake "hey, OPENCLAW!".toList (wakePhraseOf "hey openclaw".toList) = true ∧
    matchesWake "hey openclaw".toList (wakePhraseOf "hey openclaw".toList) = true ∧
    matchesWake "heyopenclaw".toList (wakePhraseOf "hey openclaw".toList) = false ∧
    (∀ t1 t2 w : List Char,
        normalizeForMatching (jsTrim (jsToLower t1))
            = normalizeForMatching (jsTrim (jsToLower t2)) →
        matchesWake t1 w = matchesWake t2 w) := by
  refine ⟨by decide, by decide, by decide, ?_⟩
  intro t1 t2 w h
  simp [matchesWake, h]

/-- C7 witness: the invariance clause applied at concrete transcripts
with equal normal forms. -/
theorem C7_wake_match_normalization_witness :
    matchesWake "hey, OPENCLAW!".toList (wakePhraseOf "hey openclaw".toList)
      = matchesWake "hey. openclaw".toList (wakePhraseOf "hey openclaw".toList) :=
  C7_wake_match_normalization.2.2.2 "hey, OPENCLAW!".toList "hey. openclaw".toList
    (wakePhraseOf "hey openclaw".toList) (by decide)

/-- C8: on a wake match the forwarded remainder is the text after the
wake phrase with the leading `[.,!?;:\s]` run stripped and trimmed; for
wake phrase "hey openclaw" and transcript "hey openclaw what's the time"
the remainder is "what's the time"; when the remainder is empty (for
example transcript "hey openclaw!"), activation happens with no forwarded
message. -/
theorem C8_remainder_extraction :
    extractRemainder "hey openclaw what\x27s the time".toList
        (wakePhraseOf "hey openclaw".toList) = "what\x27s the time".toList ∧
    voiceWakeDecision "hey openclaw what\x27s the time".toList
        (wakePhraseOf "hey openclaw".toList) = some (some "what\x27s the time".toList) ∧
    voiceWakeDecision "hey openclaw!".toList (wakePhraseOf "hey openclaw".toList)
      = some none ∧
    (∀ t w : List Char, matchesWake t w = true → extractRemainder t w = [] →
        voiceWakeDecision t w = some none) := by
  refine ⟨by decide, by decide, by decide, ?_⟩
  intro t w h1 h2
  simp [voiceWakeDecision, h1, h2]

/-- C8 witness: the empty-remainder clause applied at a concrete
transcript. -/
theorem C8_remainder_extraction_witness :
    voiceWakeDecision "hey openclaw.".toList (wakePhraseOf "hey openclaw".toList)
      = some none :=
  C8_remainder_extraction.2.2.2 "hey openclaw.".toList
    (wakePhraseOf "hey openclaw".toList) (by decide) (by decide)

/-- C9: after transcription of a finalized utterance, a transcript that
trims to empty resumes listening without dispatching; a transcript equal
to "stop" case-insensitively is not dispatched (listening resumes); a
transcript of the form "stop " followed by text with no surrounding
whitespace dispatches exactly that text; any other non-empty transcript
is dispatched as its trimmed form, entering the Thinking phase. -/
theorem C9_transcript_handling :
    (∀ (t : List Char) (s : RState), jsTrim t = [] →
        utteranceStep t s = (resumeListeningIfNeeded s, none)) ∧
    (∀ (t : List Char) (s : RState), jsToLower (jsTrim t) = "stop".toList →
        (utteranceStep t s).2 = none ∧
        (utteranceStep t s).1 = resumeListeningIfNeeded (clearVoiceWakeAutoDisable
          { s with phase := .thinking, turnGen := s.turnGen + 1 })) ∧
    (∀ (w : List Char) (s : RState) (c d : Char) (cs ds : List Char),
        w = c :: cs → isWsChar c = false → w.reverse = d :: ds → isWsChar d = false →
        (utteranceStep ("stop ".toList ++ w) s).2 = some w) ∧
    (∀ (t : List Char) (s : RState), jsTrim t ≠ [] →
        jsToLower (jsTrim t) ≠ "stop".toList →
        "stop ".toList.isPrefixOf (jsToLower (jsTrim t)) = false →
        (utteranceStep t s).2 = some (jsTrim t) ∧
        (utteranceStep t s).1.phase = .thinking) := by
  refine ⟨?_, ?_, ?_, ?_⟩
  · intro t s h
    simp [utteranceStep, h]
  · intro t s h
    have hne : jsTrim t ≠ [] := by
      intro h0
      rw [h0] at h
      simp [jsToLower] at h
    constructor <;> simp [utteranceStep, hne, h]
  · intro w s c d cs ds hw hc hr hd
    have htrim : jsTrim ("stop ".toList ++ w) = "stop ".toList ++ w := by
      apply jsTrim_of_clean _ 's' d ("top ".toList ++ w) (ds ++ "stop ".toList.reverse)
      · rw [hw]; rfl
      · rfl
      · rw [List.reverse_append, hr]; rfl
      · exact hd
    have hwtrim : jsTrim w = w := jsTrim_of_clean w c d cs ds hw hc hr hd
    have hlow : jsToLower ("stop ".toList ++ w) = "stop ".toList ++ jsToLower w := by
      rw [jsToLower, List.map_append]; rfl
    have hnstop : jsToLower (jsTrim ("stop ".toList ++ w)) ≠ "stop".toList := by
      rw [htrim, hlow]
      intro hcon
      have hlencon := congrArg List.length hcon
      simp [jsToLower] at hlencon
    have hpre : "stop ".toList.isPrefixOf (jsToLower (jsTrim ("stop ".toList ++ w)))
        = true := by
      rw [htrim, hlow, List.isPrefixOf_iff_prefix]
      exact List.prefix_append _ _
    have hne : jsTrim ("stop ".toList ++ w) ≠ [] := by rw [htrim]; simp
    have hdrop : List.drop 5 (jsTrim ("stop ".toList ++ w)) = w := by
      rw [htrim]
      have h5 : (5 : Nat) = "stop ".toList.length := rfl
      rw [h5, List.drop_left]
    have hwne : w ≠ [] := by rw [hw]; simp
    simp only [utteranceStep]
    rw [if_neg hne, if_neg hnstop, if_pos hpre, hdrop, hwtrim, if_neg hwne]
  · intro t s h1 h2 h3
    have h2b : jsToLower (jsTrim t) ≠ ['s', 't', 'o', 'p'] := by simpa using h2
    have h3a : ['s', 't', 'o', 'p', ' '].isPrefixOf (jsToLower (jsTrim t)) = false := h3
    have h3b : ¬ (['s', 't', 'o', 'p', ' '] <+: jsToLower (jsTrim t)) := by
      rw [← List.isPrefixOf_iff_prefix, h3a]
      simp
    constructor <;> simp [utteranceStep, h1, h2b, h3b, clearVoiceWakeAutoDisable]

/-- C9 witness: the four clauses applied at concrete transcripts. -/
theorem C9_transcript_handling_witness :
    utteranceStep "   ".toList RState.init = (resumeListeningIfNeeded RState.init, none) ∧
    (utteranceStep "STOP".toList RState.init).2 = none ∧
    (utteranceStep ("stop ".toList ++ "turn off".toList) RState.init).2
      = some "turn off".toList ∧
    (utteranceStep "hello".toList RState.init).2 = some (jsTrim "hello".toList) :=
  ⟨C9_transcript_handling.1 "   ".toList RState.init (by decide),
   (C9_transcript_handling.2.1 "STOP".toList RState.init (by decide)).1,
   C9_transcript_handling.2.2.1 "turn off".toList RState.init 't' 'f'
     "urn off".toList "fo nrut".toList (by decide) (by decide) (by decide) (by decide),
   (C9_transcript_handling.2.2.2 "hello".toList RState.init (by decide) (by decide)
     (by decide)).1⟩

/-- C10: in the conversation loop's assembler, the onset frame is pushed
onto the pre-roll first and then appended again when the utterance is
seeded as `[...preRoll, chunk]`, so it occurs twice in the seeded
utterance buffer; the wake listener's assembler includes each frame of a
distinct-frame stream at most once in every finalized segment. -/
theorem C10_assembler_frame_counts :
    (∀ (s : RState) (now : Int) (c : Nat),
        s.paused = false → s.phase = .listening → s.capturingSpeech = false →
        c ∉ s.preRoll →
        (convChunkStep now c true s).1.audioChunks = pushPreRoll s.preRoll c ++ [c] ∧
        ((convChunkStep now c true s).1.audioChunks).count c = 2) ∧
    (∀ (tm : Int) (evs : List WEvent), (wEventIds evs).Nodup →
        ∀ u ∈ wakeRunUtts tm evs WakeAsm.init, u.Nodup) := by
  constructor
  · intro s now c hp hph hcap hmem
    have hcount := count_pushPreRoll s.preRoll c hmem
    constructor
    · simp [convChunkStep, convAssembleStep, hp, hph, hcap, vadShouldFinalize,
        resetCaptureBuffers]
    · simp [convChunkStep, convAssembleStep, hp, hph, hcap, vadShouldFinalize,
        resetCaptureBuffers, List.count_append, hcount]
  · intro tm evs hids
    exact wakeRunUtts_nodup tm evs WakeAsm.init (by simp [WakeAsm.init])
      (by simp [WakeAsm.init]) hids

/-- C10 witness: the two clauses applied at concrete inputs. -/
theorem C10_assembler_frame_counts_witness :
    ((convChunkStep 0 9 true
        { RState.init with phase := .listening, preRoll := [1, 2] }).1.audioChunks).count 9
      = 2 ∧
    ∀ u ∈ wakeRunUtts 5000 [WEvent.frame 0 0 true, WEvent.frame 1 1 false] WakeAsm.init,
      u.Nodup :=
  ⟨(C10_assembler_frame_counts.1 _ 0 9 rfl rfl rfl (by decide)).2,
   C10_assembler_frame_counts.2 5000 [WEvent.frame 0 0 true, WEvent.frame 1 1 false]
     (by decide)⟩

end OpenClaw
